import Mathlib

/-!
Verification of the client-side product-listing dashboard (`script.js`).

The script is a fetch → filter → sort → paginate → render pipeline over a
shared mutable view state.  We embed the state and every state-changing
operation as pure Lean functions (explicit state passing), model JS arrays
as lists, JS numbers used here as `Nat`/`Int`, and the stable in-place
`Array.prototype.sort` as `List.mergeSort`.  String operations
(`toLowerCase`, `trim`, `includes`, `startsWith`) are modelled on the
character lists of Lean strings (ASCII case folding, as in `Char.toLower`).
-/

/-- A product record as delivered by the catalog API: `id`, `title`,
`price`, optional `description`, optional `category.name`, optional
`images` array. -/
structure Product where
  id : Nat
  title : String
  price : Int
  description : Option String
  categoryName : Option String
  images : Option (List String)
deriving DecidableEq

/-- Sort direction, `'asc'` or `'desc'` in the script. -/
inductive Direction
  | asc
  | desc
deriving DecidableEq

/-- The script's `sortConfig` object: a column name (`null` initially,
otherwise the clicked button's `data-sort` string) and a direction. -/
structure SortConfig where
  column : Option String
  direction : Direction
deriving DecidableEq

/-- The script's mutable module-level state.  `filteredAliasesAll` records
whether `filteredProducts` and `allProducts` are the very same array
object (the aliasing hazard of the in-place sort); the script always
rebuilds `filteredProducts` with `[...allProducts]` or `.filter`, both of
which allocate a fresh array. -/
structure ViewState where
  allProducts : List Product
  filteredProducts : List Product
  currentPage : Nat
  itemsPerPage : Nat
  sortConfig : SortConfig
  filteredAliasesAll : Bool
deriving DecidableEq

/-- The initial module-level state (`allProducts = []`, `filteredProducts = []`,
`currentPage = 1`, `itemsPerPage = 10`, `sortConfig = {column: null, direction: 'asc'}`). -/
def initialViewState : ViewState :=
  { allProducts := []
    filteredProducts := []
    currentPage := 1
    itemsPerPage := 10
    sortConfig := { column := none, direction := .asc }
    filteredAliasesAll := false }

/-- Character-list test: `l` begins with `pre`. -/
def leadsWith : List Char → List Char → Bool
  | [], _ => true
  | _ :: _, [] => false
  | c :: cs, d :: ds => c = d && leadsWith cs ds

/-- Character-list substring occurrence test. -/
def occursIn (sub : List Char) : List Char → Bool
  | [] => leadsWith sub []
  | c :: t => leadsWith sub (c :: t) || occursIn sub t

/-- JS `String.prototype.includes`: `jsIncludes s sub` holds when `sub`
occurs contiguously inside `s`. -/
def jsIncludes (s sub : String) : Bool :=
  occursIn sub.toList s.toList

/-- JS `String.prototype.toLowerCase`, modelled character by character with
`Char.toLower`. -/
def jsToLower (s : String) : String :=
  String.mk (s.toList.map Char.toLower)

/-- JS `String.prototype.trim`: strip leading and trailing whitespace. -/
def jsTrim (s : String) : String :=
  String.mk (((s.toList.dropWhile Char.isWhitespace).reverse.dropWhile Char.isWhitespace).reverse)

/-- JS `String.prototype.startsWith`. -/
def jsStartsWith (s pre : String) : Bool :=
  leadsWith pre.toList s.toList

/-- `filterProducts(searchTerm)`: rebuild `filteredProducts` from
`allProducts` (a fresh copy for the empty term, otherwise a fresh
`.filter` result matching the lowercased title) and reset `currentPage`
to 1. -/
def filterProducts (s : ViewState) (searchTerm : String) : ViewState :=
  let filtered :=
    if searchTerm = "" then s.allProducts
    else s.allProducts.filter (fun p => jsIncludes (jsToLower p.title) searchTerm)
  { s with filteredProducts := filtered, currentPage := 1, filteredAliasesAll := false }

/-- The comparator passed to `filteredProducts.sort`, rendered as a boolean
"less-or-equal" switch: `sortLE cfg a b` holds exactly when the JS
comparator returns a non-positive number on `(a, b)`, i.e. when the stable
sort may keep `a` before `b`.  Unknown columns (including `column: null`)
make the comparator return 0. -/
def sortLE (cfg : SortConfig) (a b : Product) : Bool :=
  if cfg.column = some "title" then
    match cfg.direction with
    | .asc => decide (jsToLower a.title ≤ jsToLower b.title)
    | .desc => decide (jsToLower b.title ≤ jsToLower a.title)
  else if cfg.column = some "price" then
    match cfg.direction with
    | .asc => decide (a.price ≤ b.price)
    | .desc => decide (b.price ≤ a.price)
  else true

/-- `sortProducts()`: stably sort `filteredProducts` in place with the
comparator for the current `sortConfig`.  Because the sort mutates the
array object, `allProducts` would change too if the two variables aliased
the same array. -/
def sortProducts (s : ViewState) : ViewState :=
  let sorted := s.filteredProducts.mergeSort (sortLE s.sortConfig)
  { s with
    filteredProducts := sorted
    allProducts := if s.filteredAliasesAll then sorted else s.allProducts }

/-- The ternary in `handleSort`: `'asc' ? 'desc' : 'asc'`. -/
def toggleDirection : Direction → Direction
  | .asc => .desc
  | .desc => .asc

/-- `handleSort(column)`: clicking the active column toggles the
direction, clicking a new column selects it with direction `'asc'`; then
`sortProducts()` runs and `currentPage` resets to 1. -/
def handleSort (s : ViewState) (column : String) : ViewState :=
  let cfg :=
    if s.sortConfig.column = some column then
      { s.sortConfig with direction := toggleDirection s.sortConfig.direction }
    else
      { column := some column, direction := Direction.asc }
  let s1 := sortProducts { s with sortConfig := cfg }
  { s1 with currentPage := 1 }

/-- The `itemsPerPage` change listener: store the new size and reset
`currentPage` to 1. -/
def setItemsPerPage (s : ViewState) (n : Nat) : ViewState :=
  { s with itemsPerPage := n, currentPage := 1 }

/-- The successful branch of `getAll()` as it acts on the view state:
`allProducts` is replaced by the fetched list, `filteredProducts` by the
fresh copy `[...allProducts]`, and `currentPage` resets to 1. -/
def viewFetchOk (s : ViewState) (products : List Product) : ViewState :=
  { s with
    allProducts := products
    filteredProducts := products
    currentPage := 1
    filteredAliasesAll := false }

/-- `renderTable`'s `startIndex = (currentPage - 1) * itemsPerPage`. -/
def startIndex (s : ViewState) : Nat :=
  (s.currentPage - 1) * s.itemsPerPage

/-- `renderTable`'s `pageData = filteredProducts.slice(startIndex, startIndex + itemsPerPage)`. -/
def pageData (s : ViewState) : List Product :=
  (s.filteredProducts.drop (startIndex s)).take s.itemsPerPage

/-- `Math.ceil(filteredProducts.length / itemsPerPage)`, as computed by
`updatePaginationControls` and `nextPage` (for a positive page size). -/
def totalPages (s : ViewState) : Nat :=
  (s.filteredProducts.length + s.itemsPerPage - 1) / s.itemsPerPage

/-- What `renderTable` leaves in the table body: a no-data row when the
page slice is empty, otherwise one row per product with its continuous
1-based ordinal. -/
inductive TableContent
  | empty
  | noData
  | rows (rows : List (Nat × Product))
  | errorMessage
deriving DecidableEq

/-- `renderTable()`: slice the current page and either show the no-data
row or the product rows numbered `startIndex + index + 1`. -/
def renderTable (s : ViewState) : TableContent :=
  let pd := pageData s
  if pd.length = 0 then TableContent.noData
  else TableContent.rows (pd.enum.map (fun e => (startIndex s + e.1 + 1, e.2)))

/-- The outputs of `updatePaginationControls()`. -/
structure PaginationControls where
  pageInfo : String
  prevDisabled : Bool
  nextDisabled : Bool
deriving DecidableEq

/-- `updatePaginationControls()`: page indicator text (a distinct no-data
message when the filtered list is empty), and the disabled flags of the
two navigation buttons. -/
def updatePaginationControls (s : ViewState) : PaginationControls :=
  { pageInfo :=
      if s.filteredProducts.length = 0 then "Không có dữ liệu"
      else "Trang " ++ toString s.currentPage ++ " / " ++ toString (totalPages s)
    prevDisabled := decide (s.currentPage = 1)
    nextDisabled := decide (s.currentPage ≥ totalPages s) || decide (s.filteredProducts.length = 0) }

/-- `previousPage()`: decrement `currentPage` when it is above 1,
otherwise do nothing. -/
def previousPage (s : ViewState) : ViewState :=
  if s.currentPage > 1 then { s with currentPage := s.currentPage - 1 } else s

/-- `nextPage()`: increment `currentPage` when it is below the recomputed
`totalPages`, otherwise do nothing. -/
def nextPage (s : ViewState) : ViewState :=
  if s.currentPage < totalPages s then { s with currentPage := s.currentPage + 1 } else s

/-- The outcome of the one network fetch: a parsed product list, a
non-success HTTP status, or a transport failure. -/
inductive FetchResult
  | ok (products : List Product)
  | httpError (status : Nat)
  | transportError
deriving DecidableEq

/-- Whether a fetch outcome takes the `catch` path of `getAll`. -/
def FetchResult.isFailure : FetchResult → Bool
  | .ok _ => false
  | _ => true

/-- The whole page state: the view state plus the loading-indicator flag
and the table body content. -/
structure AppState where
  view : ViewState
  loadingActive : Bool
  tableBody : TableContent
deriving DecidableEq

/-- The page state at `DOMContentLoaded`. -/
def initialAppState : AppState :=
  { view := initialViewState, loadingActive := false, tableBody := TableContent.empty }

/-- `getAll()`: show the loading indicator, fetch; on success install the
products, render, and clear the indicator; on any failure clear the
indicator and replace the table body with the inline error row. -/
def getAll (s : AppState) (r : FetchResult) : AppState :=
  match r with
  | .ok products =>
    let v := viewFetchOk s.view products
    { view := v, loadingActive := false, tableBody := renderTable v }
  | _ =>
    { s with loadingActive := false, tableBody := TableContent.errorMessage }

/-- The placeholder image URL used by `createTableRow`. -/
def placeholderImage : String := "https://via.placeholder.com/100?text=No+Image"

/-- The image-resolution logic of `createTableRow`: take the trimmed
first entry of the `images` array when the array exists and is non-empty,
and fall back to the placeholder when there is no such entry, when the
trimmed entry is empty, or when it does not start with `"http"`. -/
def resolveImageUrl (images : Option (List String)) : String :=
  match images with
  | some (firstImage :: _) =>
    let u := jsTrim firstImage
    if u = "" || !(jsStartsWith u "http") then placeholderImage else u
  | _ => placeholderImage

/-- A rendered table row. -/
structure TableRow where
  rowNumber : Nat
  id : Nat
  imageUrl : String
  title : String
  description : String
  price : Int
  categoryName : String
deriving DecidableEq

/-- `createTableRow(product, rowNumber)` (the data it projects; HTML and
currency formatting are presentation).  `||` fallbacks treat the empty
string like an absent field. -/
def createTableRow (p : Product) (rowNumber : Nat) : TableRow :=
  { rowNumber := rowNumber
    id := p.id
    imageUrl := resolveImageUrl p.images
    title := p.title
    description :=
      match p.description with
      | some d => if d = "" then "Chưa có mô tả" else d
      | none => "Chưa có mô tả"
    price := p.price
    categoryName :=
      match p.categoryName with
      | some c => if c = "" then "Khác" else c
      | none => "Khác" }

/-- A user-driven state-changing action on the view state. -/
inductive Op
  | search (raw : String)
  | sortClick (column : String)
  | setPageSize (n : Nat)
  | fetchOk (products : List Product)
  | prev
  | next
deriving DecidableEq

/-- Whether an action is the fetch. -/
def Op.isFetch : Op → Bool
  | .fetchOk _ => true
  | _ => false

/-- Dispatch an action the way the event listeners do: the search listener
lowercases and trims the raw input before calling `filterProducts`. -/
def applyOp (s : ViewState) : Op → ViewState
  | .search raw => filterProducts s (jsTrim (jsToLower raw))
  | .sortClick column => handleSort s column
  | .setPageSize n => setItemsPerPage s n
  | .fetchOk products => viewFetchOk s products
  | .prev => previousPage s
  | .next => nextPage s

/-- The pager invariant of the spec: the current page lies in
`[1, max(1, ceil(filteredCount / pageSize))]`. -/
def pageInvariant (s : ViewState) : Prop :=
  1 ≤ s.currentPage ∧ s.currentPage ≤ max 1 (totalPages s)

/-- A one-product catalog used to instantiate the theorems on concrete
inputs. -/
def demoProduct : Product :=
  { id := 1, title := "A", price := 5, description := none, categoryName := none, images := none }

/-- A view state holding the one-product catalog, as left by a successful
fetch of `[demoProduct]`. -/
def demoState : ViewState :=
  { initialViewState with allProducts := [demoProduct], filteredProducts := [demoProduct] }

theorem occursIn_nil_left (l : List Char) : occursIn [] l = true := by
  cases l with
  | nil => rfl
  | cons c t => simp [occursIn, leadsWith]

theorem jsIncludes_empty_term (s : String) : jsIncludes s "" = true := by
  have h : ("" : String).toList = [] := rfl
  rw [jsIncludes, h, occursIn_nil_left]

/-- C1, counterexample.  The claim demands that `filterProducts` keep
exactly the products whose title contains the term case-insensitively.
For the term `"A"` the title `"A"` matches case-insensitively, yet the
code compares the lowercased title against the raw term and drops it. -/
theorem C1_counterexample :
    (filterProducts demoState "A").filteredProducts
      ≠ demoState.allProducts.filter
          (fun p => jsIncludes (jsToLower p.title) (jsToLower "A")) := by
  decide

/-- C1 (amended): for every state and search term, `filterProducts`
returns an order-preserving subsequence of `allProducts`; for every
already-lowercase term (the input listener lowercases before calling) it
keeps exactly the products whose title contains the term
case-insensitively; and the empty term returns the full list unchanged. -/
theorem C1_filter_spec (s : ViewState) (t : String) :
    List.Sublist (filterProducts s t).filteredProducts s.allProducts ∧
    (jsToLower t = t →
      (filterProducts s t).filteredProducts
        = s.allProducts.filter (fun p => jsIncludes (jsToLower p.title) (jsToLower t))) ∧
    (filterProducts s "").filteredProducts = s.allProducts := by
  have hunf : ∀ (u : String), (filterProducts s u).filteredProducts
      = if u = "" then s.allProducts
        else s.allProducts.filter (fun p => jsIncludes (jsToLower p.title) u) :=
    fun u => rfl
  refine ⟨?_, ?_, ?_⟩
  · rw [hunf]
    split
    · exact List.Sublist.refl _
    · exact List.filter_sublist _
  · intro ht
    rw [hunf]
    by_cases h0 : t = ""
    · subst h0
      rw [if_pos rfl]
      have hlow : jsToLower "" = "" := by decide
      rw [hlow]
      symm
      rw [List.filter_eq_self]
      intro p _
      exact jsIncludes_empty_term _
    · rw [if_neg h0, ht]
  · rw [hunf, if_pos rfl]

/-- Witness for `C1_filter_spec` at the one-product state and the
lowercase term `"a"`. -/
theorem C1_filter_spec_witness :
    jsToLower "a" = "a" ∧
    (filterProducts demoState "a").filteredProducts
      = demoState.allProducts.filter (fun p => jsIncludes (jsToLower p.title) (jsToLower "a")) :=
  ⟨by decide, (C1_filter_spec demoState "a").2.1 (by decide)⟩

/-- C2: the visible slice is a subsequence of the filtered list (so it
references only its elements), its length is at most the page size, and
for a positive page size a non-empty filtered list yields `totalPages ≥ 1`. -/
theorem C2_pager_safe (s : ViewState) :
    List.Sublist (pageData s) s.filteredProducts ∧
    (pageData s).length ≤ s.itemsPerPage ∧
    (0 < s.itemsPerPage → 0 < s.filteredProducts.length → 1 ≤ totalPages s) := by
  refine ⟨?_, ?_, ?_⟩
  · exact (List.take_sublist _ _).trans (List.drop_sublist _ _)
  · exact List.length_take_le _ _
  · intro hip hne
    rw [totalPages, Nat.one_le_div_iff hip]
    omega

/-- Witness for `C2_pager_safe` at the one-product state. -/
theorem C2_pager_safe_witness :
    List.Sublist (pageData demoState) demoState.filteredProducts ∧
    (pageData demoState).length ≤ demoState.itemsPerPage ∧
    0 < demoState.itemsPerPage ∧
    0 < demoState.filteredProducts.length ∧
    1 ≤ totalPages demoState :=
  ⟨(C2_pager_safe demoState).1, (C2_pager_safe demoState).2.1, by decide, by decide,
    (C2_pager_safe demoState).2.2 (by decide) (by decide)⟩

/-- C4, counterexample.  A term matching zero titles empties the filtered
list, and the code then computes `totalPages = Math.ceil(0 / 10) = 0`,
not `1` as the claim states. -/
theorem C4_counterexample :
    (filterProducts demoState "zzz").filteredProducts = [] ∧
    totalPages (filterProducts demoState "zzz") ≠ 1 := by
  decide

/-- C4 (amended): with an empty filtered list (and the current page equal
to 1, as the filter reset guarantees), the computed `totalPages` is `0`,
the visible slice is empty, the no-data row is rendered, the page
indicator is replaced by the distinct no-data message, and both
navigation buttons are disabled. -/
theorem C4_empty_filtered (s : ViewState)
    (he : s.filteredProducts = []) (h1 : s.currentPage = 1) :
    totalPages s = 0 ∧
    pageData s = [] ∧
    renderTable s = TableContent.noData ∧
    (updatePaginationControls s).pageInfo = "Không có dữ liệu" ∧
    (updatePaginationControls s).prevDisabled = true ∧
    (updatePaginationControls s).nextDisabled = true := by
  have htp : totalPages s = 0 := by
    rcases Nat.eq_zero_or_pos s.itemsPerPage with h | h
    · simp [totalPages, he, h]
    · rw [totalPages, he]
      simp only [List.length_nil]
      exact Nat.div_eq_of_lt (by omega)
  have hpd : pageData s = [] := by
    simp [pageData, he]
  refine ⟨htp, hpd, ?_, ?_, ?_, ?_⟩
  · simp [renderTable, hpd]
  · simp [updatePaginationControls, he]
  · simp [updatePaginationControls, h1]
  · simp [updatePaginationControls, he]

/-- Witness for `C4_empty_filtered` at the state left by searching the
one-product catalog for `"zzz"`. -/
theorem C4_empty_filtered_witness :
    (filterProducts demoState "zzz").filteredProducts = [] ∧
    (filterProducts demoState "zzz").currentPage = 1 ∧
    (totalPages (filterProducts demoState "zzz") = 0 ∧
      pageData (filterProducts demoState "zzz") = [] ∧
      renderTable (filterProducts demoState "zzz") = TableContent.noData ∧
      (updatePaginationControls (filterProducts demoState "zzz")).pageInfo = "Không có dữ liệu" ∧
      (updatePaginationControls (filterProducts demoState "zzz")).prevDisabled = true ∧
      (updatePaginationControls (filterProducts demoState "zzz")).nextDisabled = true) :=
  ⟨by decide, by decide, C4_empty_filtered _ (by decide) (by decide)⟩

/-- C5: `previousPage` is the identity on page 1, `nextPage` is the
identity at or beyond the last computed page, and each navigation either
is the identity or moves the page by exactly one. -/
theorem C5_nav_clamps (s : ViewState) :
    (s.currentPage = 1 → previousPage s = s) ∧
    (totalPages s ≤ s.currentPage → nextPage s = s) ∧
    (previousPage s = s ∨ previousPage s = { s with currentPage := s.currentPage - 1 }) ∧
    (nextPage s = s ∨ nextPage s = { s with currentPage := s.currentPage + 1 }) := by
  refine ⟨?_, ?_, ?_, ?_⟩
  · intro h1
    rw [previousPage, if_neg (by omega)]
  · intro h
    rw [nextPage, if_neg (by omega)]
  · rw [previousPage]
    split
    · right; rfl
    · left; rfl
  · rw [nextPage]
    split
    · right; rfl
    · left; rfl

/-- Witness for `C5_nav_clamps` at the one-product state (page 1 of 1). -/
theorem C5_nav_clamps_witness :
    demoState.currentPage = 1 ∧
    totalPages demoState ≤ demoState.currentPage ∧
    previousPage demoState = demoState ∧
    nextPage demoState = demoState :=
  ⟨by decide, by decide, (C5_nav_clamps demoState).1 (by decide),
    (C5_nav_clamps demoState).2.1 (by decide)⟩

/-- C8: `getAll` always ends with the loading indicator cleared; on any
failure it renders the inline error row and leaves `allProducts`
untouched, so from the startup state it stays empty. -/
theorem C8_fetch_error_handling (s : AppState) (r : FetchResult) :
    (getAll s r).loadingActive = false ∧
    (r.isFailure = true →
      (getAll s r).tableBody = TableContent.errorMessage ∧
      (getAll s r).view.allProducts = s.view.allProducts) ∧
    (r.isFailure = true → (getAll initialAppState r).view.allProducts = []) := by
  cases r <;>
    simp [getAll, FetchResult.isFailure, initialAppState, initialViewState]

/-- Witness for `C8_fetch_error_handling` at an HTTP 500 response from
the startup state. -/
theorem C8_fetch_error_handling_witness :
    (FetchResult.httpError 500).isFailure = true ∧
    (getAll initialAppState (FetchResult.httpError 500)).loadingActive = false ∧
    (getAll initialAppState (FetchResult.httpError 500)).tableBody = TableContent.errorMessage ∧
    (getAll initialAppState (FetchResult.httpError 500)).view.allProducts = [] :=
  ⟨by decide, (C8_fetch_error_handling initialAppState (FetchResult.httpError 500)).1,
    ((C8_fetch_error_handling initialAppState (FetchResult.httpError 500)).2.1 (by decide)).1,
    (C8_fetch_error_handling initialAppState (FetchResult.httpError 500)).2.2 (by decide)⟩

/-- C9: the resolved image URL is the trimmed first entry of the `images`
array exactly when that array exists, is non-empty, and the trimmed entry
starts with `"http"`; in every other case (missing or empty array, or a
first entry whose trim does not start with `"http"`) it is the
placeholder; and the row mapping uses exactly this total function. -/
theorem C9_image_resolution (first : String) (rest : List String) :
    resolveImageUrl (some (first :: rest))
      = (if jsStartsWith (jsTrim first) "http" then jsTrim first else placeholderImage) ∧
    resolveImageUrl none = placeholderImage ∧
    resolveImageUrl (some []) = placeholderImage ∧
    (∀ (p : Product) (n : Nat), (createTableRow p n).imageUrl = resolveImageUrl p.images) := by
  refine ⟨?_, rfl, rfl, fun p n => rfl⟩
  by_cases h0 : jsTrim first = ""
  · have hs : jsStartsWith "" "http" = false := by decide
    simp [resolveImageUrl, h0, hs, placeholderImage]
  · cases hs : jsStartsWith (jsTrim first) "http" <;>
      simp [resolveImageUrl, h0, hs]

theorem totalPages_currentPage_irrelevant (s : ViewState) (n : Nat) :
    totalPages { s with currentPage := n } = totalPages s := rfl

/-- C3: every recompute keeps the current page in
`[1, max(1, ceil(filteredCount / pageSize))]` — filter, sort, page-size
change and fetch reset it to 1, and the two navigations preserve the
invariant; the startup state satisfies it as well. -/
theorem C3_page_invariant (s : ViewState) (op : Op) (h : pageInvariant s) :
    pageInvariant (applyOp s op) ∧
    pageInvariant initialViewState ∧
    (∀ raw, (filterProducts s raw).currentPage = 1) ∧
    (∀ c, (handleSort s c).currentPage = 1) ∧
    (∀ n, (setItemsPerPage s n).currentPage = 1) ∧
    (∀ l, (viewFetchOk s l).currentPage = 1) := by
  obtain ⟨h1, h2⟩ := h
  refine ⟨?_, ⟨Nat.le_refl 1, Nat.le_max_left 1 _⟩, fun raw => rfl, fun c => rfl,
    fun n => rfl, fun l => rfl⟩
  cases op with
  | search raw => exact ⟨Nat.le_refl 1, Nat.le_max_left 1 _⟩
  | sortClick column => exact ⟨Nat.le_refl 1, Nat.le_max_left 1 _⟩
  | setPageSize n => exact ⟨Nat.le_refl 1, Nat.le_max_left 1 _⟩
  | fetchOk products => exact ⟨Nat.le_refl 1, Nat.le_max_left 1 _⟩
  | prev =>
    show pageInvariant (previousPage s)
    rw [previousPage]
    split
    · rename_i hgt
      refine ⟨?_, ?_⟩
      · show 1 ≤ s.currentPage - 1
        omega
      · show s.currentPage - 1 ≤ max 1 (totalPages { s with currentPage := s.currentPage - 1 })
        rw [totalPages_currentPage_irrelevant]
        exact Nat.le_trans (Nat.sub_le _ _) h2
    · exact ⟨h1, h2⟩
  | next =>
    show pageInvariant (nextPage s)
    rw [nextPage]
    split
    · rename_i hlt
      refine ⟨?_, ?_⟩
      · show 1 ≤ s.currentPage + 1
        omega
      · show s.currentPage + 1 ≤ max 1 (totalPages { s with currentPage := s.currentPage + 1 })
        rw [totalPages_currentPage_irrelevant]
        exact Nat.le_trans hlt (Nat.le_max_right 1 _)
    · exact ⟨h1, h2⟩

/-- Witness for `C3_page_invariant`: a `nextPage` click on the
one-product state. -/
theorem C3_page_invariant_witness :
    pageInvariant demoState ∧ pageInvariant (applyOp demoState Op.next) :=
  ⟨⟨by decide, by decide⟩, (C3_page_invariant demoState Op.next ⟨by decide, by decide⟩).1⟩

theorem applyOp_frame (s : ViewState) (op : Op) (hop : op.isFetch = false)
    (ha : s.filteredAliasesAll = false) :
    (applyOp s op).allProducts = s.allProducts ∧
    (applyOp s op).filteredAliasesAll = false := by
  cases op with
  | search raw => exact ⟨rfl, rfl⟩
  | sortClick column =>
    constructor
    · show (if s.filteredAliasesAll then _ else s.allProducts) = s.allProducts
      rw [ha]
      rfl
    · exact ha
  | setPageSize n => exact ⟨rfl, ha⟩
  | fetchOk products => exact absurd hop (by simp [Op.isFetch])
  | prev =>
    rw [applyOp, previousPage]
    split
    · exact ⟨rfl, ha⟩
    · exact ⟨rfl, ha⟩
  | next =>
    rw [applyOp, nextPage]
    split
    · exact ⟨rfl, ha⟩
    · exact ⟨rfl, ha⟩

theorem foldl_applyOp_frame (l : List Product) :
    ∀ (ops : List Op) (s : ViewState), (∀ op ∈ ops, op.isFetch = false) →
      s.allProducts = l → s.filteredAliasesAll = false →
      (ops.foldl applyOp s).allProducts = l ∧
      (ops.foldl applyOp s).filteredAliasesAll = false
  | [], s, _, hall, ha => ⟨hall, ha⟩
  | op :: t, s, hops, hall, ha => by
    rw [List.foldl_cons]
    have hstep := applyOp_frame s op (hops op (List.mem_cons_self op t)) ha
    exact foldl_applyOp_frame l t (applyOp s op)
      (fun o ho => hops o (List.mem_cons_of_mem op ho))
      (hstep.1.trans hall) hstep.2

/-- C10: after a successful fetch of `l`, any sequence of non-fetch
operations (search, sort, page size, prev/next) leaves `allProducts`
equal to `l` and never aliases `filteredProducts` to it; a filter always
rebuilds `filteredProducts` fresh, and the in-place sort leaves
`allProducts` untouched whenever the two arrays are distinct objects. -/
theorem C10_all_products_frame (s0 : ViewState) (l : List Product) (ops : List Op)
    (hops : ∀ op ∈ ops, op.isFetch = false) :
    (ops.foldl applyOp (viewFetchOk s0 l)).allProducts = l ∧
    (ops.foldl applyOp (viewFetchOk s0 l)).filteredAliasesAll = false ∧
    (∀ t, (filterProducts s0 t).filteredAliasesAll = false) ∧
    (s0.filteredAliasesAll = false → (sortProducts s0).allProducts = s0.allProducts) := by
  have hmain := foldl_applyOp_frame l ops (viewFetchOk s0 l) hops rfl rfl
  refine ⟨hmain.1, hmain.2, fun t => rfl, fun ha => ?_⟩
  show (if s0.filteredAliasesAll then
          s0.filteredProducts.mergeSort (sortLE s0.sortConfig)
        else s0.allProducts) = s0.allProducts
  rw [ha]
  rfl

/-- Witness for `C10_all_products_frame`: fetch the one-product catalog,
then search, sort by price, and page forward. -/
theorem C10_all_products_frame_witness :
    (∀ op ∈ [Op.search "a", Op.sortClick "price", Op.next], op.isFetch = false) ∧
    ([Op.search "a", Op.sortClick "price", Op.next].foldl applyOp
        (viewFetchOk initialViewState [demoProduct])).allProducts = [demoProduct] ∧
    initialViewState.filteredAliasesAll = false ∧
    (sortProducts initialViewState).allProducts = initialViewState.allProducts :=
  ⟨by decide,
    (C10_all_products_frame initialViewState [demoProduct]
      [Op.search "a", Op.sortClick "price", Op.next] (by decide)).1,
    by decide,
    (C10_all_products_frame initialViewState [demoProduct]
      [Op.search "a", Op.sortClick "price", Op.next] (by decide)).2.2.2 (by decide)⟩

theorem sortLE_trans (cfg : SortConfig) :
    ∀ (a b c : Product), sortLE cfg a b = true → sortLE cfg b c = true → sortLE cfg a c = true := by
  intro a b c
  rw [sortLE, sortLE, sortLE]
  by_cases ht : cfg.column = some "title"
  · rw [if_pos ht, if_pos ht, if_pos ht]
    cases cfg.direction
    · simp only [decide_eq_true_eq]
      exact le_trans
    · simp only [decide_eq_true_eq]
      exact fun h1 h2 => le_trans h2 h1
  · rw [if_neg ht, if_neg ht, if_neg ht]
    by_cases hp : cfg.column = some "price"
    · rw [if_pos hp, if_pos hp, if_pos hp]
      cases cfg.direction
      · simp only [decide_eq_true_eq]
        exact le_trans
      · simp only [decide_eq_true_eq]
        exact fun h1 h2 => le_trans h2 h1
    · rw [if_neg hp, if_neg hp, if_neg hp]
      exact fun _ _ => rfl

theorem sortLE_total (cfg : SortConfig) :
    ∀ (a b : Product), sortLE cfg a b || sortLE cfg b a := by
  intro a b
  rw [sortLE, sortLE]
  by_cases ht : cfg.column = some "title"
  · rw [if_pos ht, if_pos ht]
    cases cfg.direction <;> simp [le_total]
  · rw [if_neg ht, if_neg ht]
    by_cases hp : cfg.column = some "price"
    · rw [if_pos hp, if_pos hp]
      cases cfg.direction <;> simp [le_total]
    · rw [if_neg hp, if_neg hp]
      rfl

theorem sortLE_price_asc_eq (a b : Product) :
    sortLE { column := some "price", direction := Direction.asc } a b
      = decide (a.price ≤ b.price) := by
  rw [sortLE]
  rw [if_neg (by simp), if_pos rfl]

theorem sortLE_price_desc_eq (a b : Product) :
    sortLE { column := some "price", direction := Direction.desc } a b
      = decide (b.price ≤ a.price) := by
  rw [sortLE]
  rw [if_neg (by simp), if_pos rfl]

theorem mergeSort_price_reverse (l : List Product) :
    ((l.mergeSort (sortLE { column := some "price", direction := Direction.asc })).map Product.price)
      = ((l.mergeSort (sortLE { column := some "price", direction := Direction.desc })).map Product.price).reverse := by
  have hA : ((l.mergeSort (sortLE { column := some "price", direction := Direction.asc })).map
      Product.price).Pairwise (· ≤ ·) := by
    rw [List.pairwise_map]
    refine List.Pairwise.imp ?_ (List.sorted_mergeSort (sortLE_trans _) (sortLE_total _) l)
    intro a b hab
    rw [sortLE_price_asc_eq, decide_eq_true_eq] at hab
    exact hab
  have hD : (((l.mergeSort (sortLE { column := some "price", direction := Direction.desc })).map
      Product.price).reverse).Pairwise (· ≤ ·) := by
    rw [List.pairwise_reverse, List.pairwise_map]
    refine List.Pairwise.imp ?_ (List.sorted_mergeSort (sortLE_trans _) (sortLE_total _) l)
    intro a b hab
    rw [sortLE_price_desc_eq, decide_eq_true_eq] at hab
    exact hab
  have hperm : ((l.mergeSort (sortLE { column := some "price", direction := Direction.asc })).map
        Product.price).Perm
      (((l.mergeSort (sortLE { column := some "price", direction := Direction.desc })).map
        Product.price).reverse) := by
    have p1 := (l.mergeSort_perm (sortLE { column := some "price", direction := Direction.asc })).map
      Product.price
    have p2 := (l.mergeSort_perm (sortLE { column := some "price", direction := Direction.desc })).map
      Product.price
    have p3 := List.reverse_perm
      ((l.mergeSort (sortLE { column := some "price", direction := Direction.desc })).map
        Product.price)
    exact p1.trans (p2.symm.trans p3.symm)
  exact List.eq_of_perm_of_sorted hperm hA hD

/-- C6: sorting by price ascending and by price descending produce lists
whose price sequences are exact reverses of each other. -/
theorem C6_price_sort_reverse (s : ViewState) :
    ((sortProducts { s with sortConfig := { column := some "price", direction := Direction.asc } }).filteredProducts.map Product.price)
      = ((sortProducts { s with sortConfig := { column := some "price", direction := Direction.desc } }).filteredProducts.map Product.price).reverse :=
  mergeSort_price_reverse s.filteredProducts

theorem enumLE_eq_of_tie {α : Type _} (le : α → α → Bool) (p q : Nat × α)
    (htie : le p.2 q.2 = true → le q.2 p.2 = true → p.1 ≤ q.1) :
    List.enumLE le p q = le p.2 q.2 := by
  rw [List.enumLE]
  cases hab : le p.2 q.2 <;> cases hba : le q.2 p.2 <;> simp [hab, hba]
  exact htie hab hba

theorem eq_of_perm_of_pairwise_of_antisymmOn {α : Type _} {r : α → α → Prop} :
    ∀ {l₁ l₂ : List α}, l₁.Perm l₂ → l₁.Pairwise r → l₂.Pairwise r →
      (∀ x ∈ l₁, ∀ y ∈ l₁, r x y → r y x → x = y) → l₁ = l₂ := by
  intro l₁
  induction l₁ with
  | nil =>
    intro l₂ hp _ _ _
    exact hp.nil_eq
  | cons a t ih =>
    intro l₂ hp hs₁ hs₂ anti
    have ha : a ∈ l₂ := hp.subset (List.mem_cons_self a t)
    obtain ⟨u, v, rfl⟩ := List.append_of_mem ha
    have hp' : t.Perm (u ++ v) := (List.perm_cons a).1 (hp.trans List.perm_middle)
    have hsu : (u ++ v).Pairwise r := hs₂.sublist (by simp)
    have ht : t = u ++ v :=
      ih hp' (List.pairwise_cons.mp hs₁).2 hsu
        (fun x hx y hy => anti x (List.mem_cons_of_mem a hx) y (List.mem_cons_of_mem a hy))
    have hxa : ∀ x ∈ u, x = a := by
      intro x hxu
      have hx_t : x ∈ t := by
        rw [ht]
        exact List.mem_append_left v hxu
      have h1 : r x a := (List.pairwise_append.mp hs₂).2.2 x hxu a (List.mem_cons_self a v)
      have h2 : r a x := (List.pairwise_cons.mp hs₁).1 x hx_t
      exact anti x (List.mem_cons_of_mem a hx_t) a (List.mem_cons_self a t) h1 h2
    have hu : u = List.replicate u.length a := List.eq_replicate_of_mem hxa
    rw [ht, hu, ← List.cons_append, ← List.replicate_succ, List.replicate_succ',
      List.append_assoc, List.singleton_append]

theorem pairwise_enumLE_enum {α : Type _} (le : α → α → Bool) {l : List α}
    (h : l.Pairwise (fun a b => le a b = true)) :
    l.enum.Pairwise (fun x y => List.enumLE le x y = true) := by
  rw [List.pairwise_iff_getElem] at h ⊢
  intro i j hi hj hij
  have hi' : i < l.length := by simpa using hi
  have hj' : j < l.length := by simpa using hj
  have hle := h i j hi' hj' hij
  have hij' : i ≤ j := Nat.le_of_lt hij
  rw [List.getElem_enum, List.getElem_enum, List.enumLE]
  simp [hle, hij']

theorem enum_enumLE_antisymm {α : Type _} (le : α → α → Bool) {l : List α}
    {x y : Nat × α} (hx : x ∈ l.enum) (hy : y ∈ l.enum)
    (hxy : List.enumLE le x y = true) (hyx : List.enumLE le y x = true) : x = y := by
  have hab : le x.2 y.2 = true := by
    by_cases h : le x.2 y.2 = true
    · exact h
    · rw [List.enumLE] at hxy
      simp [h] at hxy
  have hba : le y.2 x.2 = true := by
    by_cases h : le y.2 x.2 = true
    · exact h
    · rw [List.enumLE] at hyx
      simp [h] at hyx
  have h1 : x.1 ≤ y.1 := by
    rw [List.enumLE] at hxy
    simp [hab, hba] at hxy
    exact hxy
  have h2 : y.1 ≤ x.1 := by
    rw [List.enumLE] at hyx
    simp [hab, hba] at hyx
    exact hyx
  have hidx : x.1 = y.1 := Nat.le_antisymm h1 h2
  have hx' : l[x.1]? = some x.2 := List.mk_mem_enum_iff_getElem?.mp hx
  have hy' : l[y.1]? = some y.2 := List.mk_mem_enum_iff_getElem?.mp hy
  rw [hidx] at hx'
  rw [hx'] at hy'
  exact Prod.ext hidx (Option.some.inj hy')

theorem mergeSort_enumLE_map_snd {α : Type _} (le : α → α → Bool) :
    ∀ (X : List (Nat × α)),
      X.Pairwise (fun x y => le x.2 y.2 = true → le y.2 x.2 = true → x.1 ≤ y.1) →
      (X.mergeSort (List.enumLE le)).map Prod.snd = (X.map Prod.snd).mergeSort le
  | [], _ => by simp
  | [x], _ => by simp
  | a :: b :: xs, h => by
    have hlt1 : ((a :: b :: xs).take ((xs.length + 1 + 1 + 1) / 2)).length < xs.length + 1 + 1 := by
      simp [List.length_take]
      omega
    have hlt2 : ((a :: b :: xs).drop ((xs.length + 1 + 1 + 1) / 2)).length < xs.length + 1 + 1 := by
      simp
      omega
    have hmapcons : (a :: b :: xs).map Prod.snd = a.2 :: b.2 :: xs.map Prod.snd := rfl
    have hX : (a :: b :: xs).take ((xs.length + 1 + 1 + 1) / 2)
        ++ (a :: b :: xs).drop ((xs.length + 1 + 1 + 1) / 2) = a :: b :: xs :=
      List.take_append_drop _ _
    have h' : ((a :: b :: xs).take ((xs.length + 1 + 1 + 1) / 2)
        ++ (a :: b :: xs).drop ((xs.length + 1 + 1 + 1) / 2)).Pairwise
          (fun x y => le x.2 y.2 = true → le y.2 x.2 = true → x.1 ≤ y.1) := by
      rw [hX]
      exact h
    have hp1 := (List.pairwise_append.mp h').1
    have hp2 := (List.pairwise_append.mp h').2.1
    have hcross := (List.pairwise_append.mp h').2.2
    rw [List.mergeSort, hmapcons, List.mergeSort]
    simp only [List.splitInTwo_fst, List.splitInTwo_snd, List.length_map, List.length_cons]
    rw [← hmapcons, ← List.map_take, ← List.map_drop]
    rw [← mergeSort_enumLE_map_snd le ((a :: b :: xs).take ((xs.length + 1 + 1 + 1) / 2)) hp1]
    rw [← mergeSort_enumLE_map_snd le ((a :: b :: xs).drop ((xs.length + 1 + 1 + 1) / 2)) hp2]
    refine List.map_merge ?_
    intro p hp q hq
    exact enumLE_eq_of_tie le p q
      (hcross p (List.mem_mergeSort.mp hp) q (List.mem_mergeSort.mp hq))
termination_by X _ => X.length

theorem mergeSort_flip_roundtrip {α : Type _} (le : α → α → Bool)
    (htrans : ∀ a b c, le a b = true → le b c = true → le a c = true)
    (htotal : ∀ a b, le a b || le b a)
    {l : List α} (h : l.Pairwise (fun a b => le a b = true)) :
    (l.mergeSort (fun a b => le b a)).mergeSort le = l := by
  have hdtrans : ∀ a b c : α, le b a = true → le c b = true → le c a = true :=
    fun a b c h1 h2 => htrans c b a h2 h1
  have hdtotal : ∀ a b : α, le b a || le a b := fun a b => htotal b a
  have h1 : l.mergeSort (fun a b => le b a)
      = (l.enum.mergeSort (List.enumLE (fun a b => le b a))).map Prod.snd :=
    List.mergeSort_enum.symm
  have hD : (l.enum.mergeSort (List.enumLE (fun a b => le b a))).Pairwise
      (fun x y => List.enumLE (fun a b => le b a) x y = true) :=
    List.sorted_mergeSort (List.enumLE_trans (fun a b c => hdtrans a b c))
      (List.enumLE_total (fun a b => hdtotal a b)) _
  have htie : (l.enum.mergeSort (List.enumLE (fun a b => le b a))).Pairwise
      (fun x y => le x.2 y.2 = true → le y.2 x.2 = true → x.1 ≤ y.1) := by
    refine List.Pairwise.imp ?_ hD
    intro x y hxy hab hba
    rw [List.enumLE] at hxy
    simp [hab, hba] at hxy
    exact hxy
  have h2 : ((l.enum.mergeSort (List.enumLE (fun a b => le b a))).map Prod.snd).mergeSort le
      = ((l.enum.mergeSort (List.enumLE (fun a b => le b a))).mergeSort
          (List.enumLE le)).map Prod.snd :=
    (mergeSort_enumLE_map_snd le _ htie).symm
  have h3 : (l.enum.mergeSort (List.enumLE (fun a b => le b a))).mergeSort (List.enumLE le)
      = l.enum := by
    refine @eq_of_perm_of_pairwise_of_antisymmOn (Nat × α)
      (fun x y => List.enumLE le x y = true) _ _ ?_ ?_ ?_ ?_
    · exact (List.mergeSort_perm _ _).trans (List.mergeSort_perm _ _)
    · exact List.sorted_mergeSort (List.enumLE_trans htrans) (List.enumLE_total htotal) _
    · exact pairwise_enumLE_enum le h
    · intro x hx y hy hxy hyx
      have hx' : x ∈ l.enum := List.mem_mergeSort.mp (List.mem_mergeSort.mp hx)
      have hy' : y ∈ l.enum := List.mem_mergeSort.mp (List.mem_mergeSort.mp hy)
      exact enum_enumLE_antisymm le hx' hy' hxy hyx
  rw [h1, h2, h3, List.enum_map_snd]

theorem handleSort_spec (s : ViewState) (c : String) :
    (handleSort s c).sortConfig
      = (if s.sortConfig.column = some c
         then { s.sortConfig with direction := toggleDirection s.sortConfig.direction }
         else { column := some c, direction := Direction.asc }) ∧
    (handleSort s c).filteredProducts
      = s.filteredProducts.mergeSort (sortLE (if s.sortConfig.column = some c
         then { s.sortConfig with direction := toggleDirection s.sortConfig.direction }
         else { column := some c, direction := Direction.asc })) ∧
    (handleSort s c).currentPage = 1 :=
  ⟨rfl, rfl, rfl⟩

theorem sortLE_toggle (c : String) (a b : Product) :
    sortLE { column := some c, direction := Direction.desc } a b
      = sortLE { column := some c, direction := Direction.asc } b a := rfl

theorem sortLE_toggle_fun (c : String) :
    sortLE { column := some c, direction := Direction.desc }
      = fun a b => sortLE { column := some c, direction := Direction.asc } b a :=
  funext fun a => funext fun b => sortLE_toggle c a b

/-- C7: clicking the active sort column toggles the direction, clicking a
new column selects it ascending, and after activating a column, clicking
it twice more (asc → desc → asc) leaves the displayed list and the sort
configuration exactly as after the original ascending sort. -/
theorem C7_sort_toggle (s : ViewState) (c : String) :
    (s.sortConfig.column = some c →
      (handleSort s c).sortConfig
        = { column := some c, direction := toggleDirection s.sortConfig.direction }) ∧
    (s.sortConfig.column ≠ some c →
      (handleSort s c).sortConfig = { column := some c, direction := Direction.asc }) ∧
    (s.sortConfig.column ≠ some c →
      (handleSort (handleSort (handleSort s c) c) c).filteredProducts
          = (handleSort s c).filteredProducts ∧
        (handleSort (handleSort (handleSort s c) c) c).sortConfig
          = (handleSort s c).sortConfig) := by
  refine ⟨?_, ?_, ?_⟩
  · intro h
    rw [(handleSort_spec s c).1, if_pos h]
    rw [show ({ s.sortConfig with direction := toggleDirection s.sortConfig.direction } : SortConfig)
        = { column := s.sortConfig.column, direction := toggleDirection s.sortConfig.direction }
      from rfl, h]
  · intro h
    rw [(handleSort_spec s c).1, if_neg h]
  · intro h
    have h1col : (handleSort s c).sortConfig
        = { column := some c, direction := Direction.asc } := by
      rw [(handleSort_spec s c).1, if_neg h]
    have h1f : (handleSort s c).filteredProducts
        = s.filteredProducts.mergeSort (sortLE { column := some c, direction := Direction.asc }) := by
      rw [(handleSort_spec s c).2.1, if_neg h]
    have h2cond : (handleSort s c).sortConfig.column = some c := by
      rw [h1col]
    have h2col : (handleSort (handleSort s c) c).sortConfig
        = { column := some c, direction := Direction.desc } := by
      rw [(handleSort_spec _ c).1, if_pos h2cond, h1col]
      rfl
    have h2f : (handleSort (handleSort s c) c).filteredProducts
        = (handleSort s c).filteredProducts.mergeSort
            (sortLE { column := some c, direction := Direction.desc }) := by
      rw [(handleSort_spec _ c).2.1, if_pos h2cond, h1col]
      rfl
    have h3cond : (handleSort (handleSort s c) c).sortConfig.column = some c := by
      rw [h2col]
    have h3col : (handleSort (handleSort (handleSort s c) c) c).sortConfig
        = { column := some c, direction := Direction.asc } := by
      rw [(handleSort_spec _ c).1, if_pos h3cond, h2col]
      rfl
    have h3f : (handleSort (handleSort (handleSort s c) c) c).filteredProducts
        = (handleSort (handleSort s c) c).filteredProducts.mergeSort
            (sortLE { column := some c, direction := Direction.asc }) := by
      rw [(handleSort_spec _ c).2.1, if_pos h3cond, h2col]
      rfl
    constructor
    · rw [h3f, h2f, h1f, sortLE_toggle_fun c]
      exact mergeSort_flip_roundtrip (sortLE { column := some c, direction := Direction.asc })
        (sortLE_trans _) (sortLE_total _)
        (List.sorted_mergeSort (sortLE_trans _) (sortLE_total _) s.filteredProducts)
    · rw [h3col, h1col]

/-- Witness for `C7_sort_toggle`: toggling the price column on the
one-product state, once from a state where it is active and (for the
round trip) three times from a state where it is not. -/
theorem C7_sort_toggle_witness :
    ({ demoState with
        sortConfig := { column := some "price", direction := Direction.asc } } : ViewState).sortConfig.column
      = some "price" ∧
    (handleSort { demoState with
        sortConfig := { column := some "price", direction := Direction.asc } } "price").sortConfig
      = { column := some "price", direction := toggleDirection Direction.asc } ∧
    demoState.sortConfig.column ≠ some "price" ∧
    (handleSort demoState "price").sortConfig
      = { column := some "price", direction := Direction.asc } ∧
    (handleSort (handleSort (handleSort demoState "price") "price") "price").filteredProducts
      = (handleSort demoState "price").filteredProducts :=
  ⟨by decide,
    (C7_sort_toggle { demoState with
        sortConfig := { column := some "price", direction := Direction.asc } } "price").1 (by decide),
    by decide,
    (C7_sort_toggle demoState "price").2.1 (by decide),
    ((C7_sort_toggle demoState "price").2.2 (by decide)).1⟩
